import Mathlib

/-!
Shallow embedding of the TooDoo offline-tolerant sync engine:
local cache data model, pending-change tracking, the last-write-wins
merge engine, the sync round, the circuit breaker, the distributed
file lock, and task validation, together with theorems settling the
frozen claims about them.

Impure ingredients of the source (wall-clock time, generated UUIDs,
filesystem outcomes) are passed in as explicit parameters, so every
definition is a pure, executable function of its inputs.
-/

namespace TooDoo

/-- Table discriminator of a pending change, from the PendingChange type. -/
inductive Table where
  | tasks
  | projectNotes
  | notes
deriving DecidableEq, Repr

/-- Operation carried by a pending change. -/
inductive Op where
  | create
  | update
  | delete
deriving DecidableEq, Repr

/-- PendingChange record, from the sync module's PendingChange type. -/
structure PendingChange where
  id : String
  table : Table
  recordId : String
  operation : Op
  timestamp : Nat
deriving DecidableEq, Repr

/-- Task record with the fields the sync engine reads and writes
(identity, content fields, timestamps, soft-delete flag). -/
structure Task where
  id : String
  title : String
  description : Option String
  category : Option String
  isDone : Bool
  createdAt : Nat
  updatedAt : Nat
  isDeleted : Bool
deriving DecidableEq, Repr

/-- Note record, from the shared types module. -/
structure Note where
  id : String
  title : String
  content : String
  createdAt : Nat
  updatedAt : Nat
  isDeleted : Bool
deriving DecidableEq, Repr

/-- LocalCache shape persisted to the per-machine cache file. -/
structure LocalCache where
  tasks : List Task
  notes : List Note
  pendingChanges : List PendingChange
  lastNasSyncAt : Nat
deriving DecidableEq, Repr

/-- NasStore shape of the shared snapshot file. -/
structure NasStore where
  tasks : List Task
  notes : List Note
  lastModifiedAt : Nat
  lastModifiedBy : String
deriving DecidableEq, Repr

/-- getDefaultCache from the sync module. -/
def getDefaultCache : LocalCache :=
  { tasks := [], notes := [], pendingChanges := [], lastNasSyncAt := 0 }

-- Sync scheduler and circuit breaker constants from the sync module.

def SYNC_INTERVAL_MS : Nat := 5000
def SYNC_DEBOUNCE_MS : Nat := 1000
def MAX_PAYLOAD_SIZE : Nat := 100000
def MAX_CONSECUTIVE_ERRORS : Nat := 5
def MIN_BACKOFF_MS : Nat := 30000
def MAX_BACKOFF_MS : Nat := 5 * 60000

/-! JavaScript Map and Set semantics used by mergeData: a Map built from
an entry list keeps, for each key, the LAST value inserted; iteration of
Set keys keeps the FIRST occurrence order. -/

/-- Lookup in a JS Map built from an entry list: the last entry wins. -/
def jsMapGet {α : Type} (entries : List (String × α)) (k : String) : Option α :=
  (entries.reverse.find? (fun e => e.1 = k)).map (fun e => e.2)

/-- First-occurrence deduplication, mirroring JS Set insertion order. -/
def dedupFirstAux : List String → List String → List String
  | [], _ => []
  | x :: xs, seen => if x ∈ seen then dedupFirstAux xs seen else x :: dedupFirstAux xs (x :: seen)

/-- Deduplicate a key list keeping first occurrences (JS Set order). -/
def dedupFirst (l : List String) : List String := dedupFirstAux l []

/-- Key iteration order of a JS Map built from an entry list. -/
def jsMapKeys {α : Type} (entries : List (String × α)) : List String :=
  dedupFirst (entries.map (fun e => e.1))

/-- recordIds of pending changes for one table, as in mergeData's
pendingTaskIds and pendingNoteIds sets. -/
def pendingIdsFor (pcs : List PendingChange) (t : Table) : List String :=
  (pcs.filter (fun p => p.table = t)).map (fun p => p.recordId)

/-- Body of one iteration of the merge loops of mergeData, for one
record id: with a pending change the local version (or omission) wins;
otherwise last-write-wins with ties to the shared (NAS) side; an id on
one side only is carried through. -/
def mergeStep {α : Type} (getUpd : α → Nat)
    (pendingIds : List String) (nasEntries localEntries : List (String × α))
    (i : String) : Option α :=
  let nasRec := jsMapGet nasEntries i
  let localRec := jsMapGet localEntries i
  if i ∈ pendingIds then
    localRec
  else
    match nasRec, localRec with
    | some n, some l => some (if getUpd l ≤ getUpd n then n else l)
    | some n, none => some n
    | none, some l => some l
    | none, none => none

/-- One record-collection pass of mergeData, shared by the task loop and
the note loop of the source (the source comments the second loop as
"same logic"); parameterized by the id and updatedAt accessors. -/
def mergeRecords {α : Type} (getId : α → String) (getUpd : α → Nat)
    (pendingIds : List String) (nasRecs localRecs : List α) : List α :=
  let nasEntries := nasRecs.map (fun r => (getId r, r))
  let localEntries := localRecs.map (fun r => (getId r, r))
  let allIds := dedupFirst (jsMapKeys nasEntries ++ jsMapKeys localEntries)
  allIds.filterMap (mergeStep getUpd pendingIds nasEntries localEntries)

/-- mergeData from the sync module: last-write-wins merge of the local
cache against the shared snapshot, with pending-change precedence. -/
def mergeData (l : LocalCache) (nas : NasStore) : List Task × List Note :=
  (mergeRecords Task.id Task.updatedAt (pendingIdsFor l.pendingChanges Table.tasks) nas.tasks l.tasks,
   mergeRecords Note.id Note.updatedAt (pendingIdsFor l.pendingChanges Table.notes) nas.notes l.notes)

/-- addPendingChange from the sync module: drop any existing pending
change for the same (table, recordId), then append the new one. The
generated UUID and the Date.now timestamp are explicit parameters. -/
def addPendingChange (c : LocalCache) (table : Table) (recordId : String)
    (operation : Op) (newId : String) (now : Nat) : LocalCache :=
  { c with pendingChanges :=
      (c.pendingChanges.filter (fun p => ¬(p.table = table ∧ p.recordId = recordId)))
      ++ [{ id := newId, table := table, recordId := recordId,
            operation := operation, timestamp := now }] }

/-- clearPendingChanges from the sync module. -/
def clearPendingChanges (c : LocalCache) : LocalCache :=
  { c with pendingChanges := [] }

/-! Circuit breaker: the sync module's module-level mutable variables
syncErrorCount, currentBackoffMs, circuitBreakerOpen and
circuitBreakerResetTime, made an explicit state record. -/

/-- Circuit breaker state of the sync scheduler. -/
structure BreakerState where
  syncErrorCount : Nat
  currentBackoffMs : Nat
  circuitBreakerOpen : Bool
  circuitBreakerResetTime : Nat
deriving DecidableEq, Repr

/-- Initial values of the circuit breaker variables. -/
def initialBreakerState : BreakerState :=
  { syncErrorCount := 0, currentBackoffMs := MIN_BACKOFF_MS,
    circuitBreakerOpen := false, circuitBreakerResetTime := 0 }

/-- onSyncSuccess from the sync module. -/
def onSyncSuccess (s : BreakerState) : BreakerState :=
  { s with syncErrorCount := 0, currentBackoffMs := MIN_BACKOFF_MS,
           circuitBreakerOpen := false }

/-- onSyncFailure from the sync module: increment the consecutive error
count; on reaching the threshold with the circuit still closed, open the
circuit, set the reset time to now + backoff, and double the stored
backoff (capped). Date.now is the explicit now parameter. -/
def onSyncFailure (s : BreakerState) (now : Nat) : BreakerState :=
  let count := s.syncErrorCount + 1
  if MAX_CONSECUTIVE_ERRORS ≤ count ∧ s.circuitBreakerOpen = false then
    { syncErrorCount := count,
      circuitBreakerOpen := true,
      circuitBreakerResetTime := now + s.currentBackoffMs,
      currentBackoffMs := min (s.currentBackoffMs * 2) MAX_BACKOFF_MS }
  else
    { s with syncErrorCount := count }

/-- isCircuitBreakerAllowing from the sync module. -/
def isCircuitBreakerAllowing (s : BreakerState) (now : Nat) : Bool :=
  if s.circuitBreakerOpen = false then true
  else if s.circuitBreakerResetTime ≤ now then true
  else false

/-- resetCircuitBreaker from the sync module. -/
def resetCircuitBreaker (s : BreakerState) : BreakerState :=
  { s with circuitBreakerOpen := false, syncErrorCount := 0,
           currentBackoffMs := MIN_BACKOFF_MS }

/-- Guard of the periodic-timer callback in startSyncScheduler: a sync
attempt starts only when no sync is in progress and the breaker allows. -/
def schedulerTickStarts (syncInProgress : Bool) (s : BreakerState) (now : Nat) : Bool :=
  !syncInProgress && isCircuitBreakerAllowing s now

/-- Guard of the debounced-sync timeout callback in debouncedSync,
identical to the periodic-timer guard. -/
def debouncedSyncStarts (syncInProgress : Bool) (s : BreakerState) (now : Nat) : Bool :=
  !syncInProgress && isCircuitBreakerAllowing s now

/-! One sync round under the lock: the body of syncWithNas after the
lock is acquired and the shared snapshot has been read. The outcome of
writeToNas is the explicit writeSucceeds parameter; the store handed to
writeToNas and the value handed to setLastSyncAt are returned so the
round's effects are fully visible. -/

/-- Result of one locked sync round. -/
structure SyncRound where
  cache : LocalCache
  written : Option NasStore
  configLastSyncAt : Option Nat
  success : Bool
deriving DecidableEq, Repr

/-- Body of syncWithNas between reading the shared snapshot and
releasing the lock: with pending changes, merge and write back, clearing
the pending list only on write success; with none, adopt the snapshot. -/
def syncWithNasLocked (localCache : LocalCache) (nasData : NasStore)
    (machineId : String) (now : Nat) (writeSucceeds : Bool) : SyncRound :=
  if 0 < localCache.pendingChanges.length then
    let merged := mergeData localCache nasData
    let newNasStore : NasStore :=
      { tasks := merged.1, notes := merged.2,
        lastModifiedAt := now, lastModifiedBy := machineId }
    if writeSucceeds then
      { cache := clearPendingChanges
          { localCache with tasks := merged.1, notes := merged.2, lastNasSyncAt := now },
        written := some newNasStore,
        configLastSyncAt := some now,
        success := true }
    else
      { cache := localCache, written := some newNasStore,
        configLastSyncAt := none, success := false }
  else
    let adopted : LocalCache :=
      { localCache with tasks := nasData.tasks, notes := nasData.notes, lastNasSyncAt := now }
    { cache := adopted, written := none, configLastSyncAt := some now, success := true }

/-! Distributed file lock, from file-lock.ts. Filesystem observations of
each poll iteration (the two reads of the lock file, the outcome of the
exclusive create, the outcome of the delete) are supplied as an
environment script; the script's length bounds the number of poll
iterations inside the acquisition timeout. -/

/-- LockInfo written into the lock file. -/
structure LockInfo where
  machineId : String
  acquiredAt : Nat
  pid : Nat
  nonce : String
deriving DecidableEq, Repr

def LOCK_STALE_TIMEOUT_MS : Nat := 30000
def LOCK_ACQUIRE_TIMEOUT_MS : Nat := 5000
def LOCK_RETRY_INTERVAL_MS : Nat := 100

/-- NETWORK_ERROR_CODES from file-lock.ts. -/
def NETWORK_ERROR_CODES : List String :=
  ["ENETUNREACH", "ETIMEDOUT", "ENOTFOUND", "ECONNREFUSED",
   "EHOSTUNREACH", "ECONNRESET", "EPIPE"]

/-- isNetworkError from file-lock.ts, on an error code string. -/
def isNetworkError (code : String) : Bool := NETWORK_ERROR_CODES.contains code

/-- Outcome of the underlying exclusive-create filesystem call. -/
inductive FsWriteOutcome where
  | ok
  | err (code : String)
deriving DecidableEq, Repr

/-- LockCreateResult from file-lock.ts. -/
inductive LockCreateResult where
  | created
  | lockExists
  | network (code : String)
  | other
deriving DecidableEq, Repr

/-- tryCreateLockExclusive from file-lock.ts: classify the outcome of
the exclusive create into created / exists / network / other. -/
def tryCreateLockExclusive (outcome : FsWriteOutcome) : LockCreateResult :=
  match outcome with
  | FsWriteOutcome.ok => LockCreateResult.created
  | FsWriteOutcome.err code =>
    if code = "EEXIST" then LockCreateResult.lockExists
    else if isNetworkError code then LockCreateResult.network code
    else LockCreateResult.other

/-- isLockStale from file-lock.ts, on the lock file's parsed content and
the current time: a missing or unreadable lock counts as stale; an
existing one is stale when its age strictly exceeds maxAge. -/
def isLockStale (info : Option LockInfo) (now : Nat) (maxAge : Nat) : Bool :=
  match info with
  | none => true
  | some i => decide (maxAge < now - i.acquiredAt)

/-- Filesystem observations for one iteration of the acquireLock poll
loop: the readLockInfo result at the top, the exclusive-create outcome
(consulted when no lock was read), the re-read inside isLockStale and
the Date.now it uses (consulted for a foreign lock), and whether
deleteLockFile succeeds. -/
structure LockEnvStep where
  readResult : Option LockInfo
  createOutcome : FsWriteOutcome
  staleReadResult : Option LockInfo
  nowAtStaleCheck : Nat
  deleteOk : Bool
deriving DecidableEq, Repr

/-- Result record of acquireLock. -/
structure AcquireResult where
  acquired : Bool
  networkError : Bool
  nonce : Option String
deriving DecidableEq, Repr

/-- Record of one stale-lock deletion attempted by acquireLock: the
foreign lock read at the top of the iteration, the lock content the
staleness check saw, and the time it used. -/
structure DeleteEvent where
  firstRead : LockInfo
  lockRead : Option LockInfo
  now : Nat
deriving DecidableEq, Repr

/-- acquireLock from file-lock.ts over an environment script, returning
the result together with the trace of stale-lock deletions it attempted.
An exhausted script is the acquisition timeout. -/
def acquireLock (machineId : String) (pid : Nat) (ourNonce : String) :
    List LockEnvStep → AcquireResult × List DeleteEvent
  | [] => ({ acquired := false, networkError := false, nonce := none }, [])
  | step :: rest =>
    match step.readResult with
    | none =>
      match tryCreateLockExclusive step.createOutcome with
      | LockCreateResult.created =>
        ({ acquired := true, networkError := false, nonce := some ourNonce }, [])
      | LockCreateResult.network _ =>
        ({ acquired := false, networkError := true, nonce := none }, [])
      | LockCreateResult.lockExists => acquireLock machineId pid ourNonce rest
      | LockCreateResult.other => acquireLock machineId pid ourNonce rest
    | some existingLock =>
      if existingLock.machineId = machineId ∧ existingLock.pid = pid then
        ({ acquired := true, networkError := false, nonce := some existingLock.nonce }, [])
      else if isLockStale step.staleReadResult step.nowAtStaleCheck LOCK_STALE_TIMEOUT_MS then
        let ev : DeleteEvent :=
          { firstRead := existingLock, lockRead := step.staleReadResult,
            now := step.nowAtStaleCheck }
        let r := acquireLock machineId pid ourNonce rest
        (r.1, ev :: r.2)
      else
        acquireLock machineId pid ourNonce rest

/-! Validation and the task operations addTask / updateTask. IPC
payloads are runtime JavaScript values, so payload fields are modelled
as optional JS values (absent = undefined). -/

/-- Runtime JavaScript value of a payload field. -/
inductive JsVal where
  | vStr (s : String)
  | vNum (n : Int)
  | vBool (b : Bool)
  | vNull
deriving DecidableEq, Repr

/-- Code points the JavaScript String.prototype.trim strips. -/
def jsWhitespaceCodes : List Nat :=
  [0x09, 0x0A, 0x0B, 0x0C, 0x0D, 0x20, 0xA0, 0x1680,
   0x2000, 0x2001, 0x2002, 0x2003, 0x2004, 0x2005, 0x2006, 0x2007,
   0x2008, 0x2009, 0x200A, 0x2028, 0x2029, 0x202F, 0x205F, 0x3000, 0xFEFF]

/-- Whether a character is JavaScript whitespace. -/
def isJsWhitespace (c : Char) : Bool := jsWhitespaceCodes.contains c.toNat

/-- String.prototype.trim semantics. -/
def jsTrim (s : String) : String :=
  String.mk (((s.data.dropWhile isJsWhitespace).reverse.dropWhile isJsWhitespace).reverse)

/-- JavaScript string length (UTF-16 code units). -/
def utf16Len (s : String) : Nat :=
  s.data.foldl (fun n c => n + (if 0x10000 ≤ c.toNat then 2 else 1)) 0

/-- UTF-16 length contributed by one character inside a JSON string
literal as produced by JSON.stringify. -/
def jsonEscLen (c : Char) : Nat :=
  if c = '"' ∨ c = '\\' then 2
  else if c.toNat < 0x20 then
    (if c.toNat = 8 ∨ c.toNat = 9 ∨ c.toNat = 10 ∨ c.toNat = 12 ∨ c.toNat = 13 then 2 else 6)
  else if 0x10000 ≤ c.toNat then 2
  else 1

/-- UTF-16 length of a JSON string literal, quotes included. -/
def jsonStrLen (s : String) : Nat :=
  2 + s.data.foldl (fun n c => n + jsonEscLen c) 0

/-- UTF-16 length of the JSON.stringify image of one JS value. -/
def jsonValLen : JsVal → Nat
  | JsVal.vStr s => jsonStrLen s
  | JsVal.vNum n => (toString n).length
  | JsVal.vBool b => if b then 4 else 5
  | JsVal.vNull => 4

/-- Task payload as received over IPC: id plus runtime-typed optional
fields (none = the field was undefined). -/
structure TaskPayload where
  id : String
  title : Option JsVal := none
  description : Option JsVal := none
  category : Option JsVal := none
  isDone : Option Bool := none
deriving DecidableEq, Repr

/-- UTF-16 length of JSON.stringify of a task payload: braces, quoted
keys, colons, serialized values and separating commas, with
undefined-valued fields omitted. -/
def jsonPayloadLen (p : TaskPayload) : Nat :=
  let fields : List (String × JsVal) :=
    [("id", JsVal.vStr p.id)]
    ++ (match p.title with | some v => [("title", v)] | none => [])
    ++ (match p.description with | some v => [("description", v)] | none => [])
    ++ (match p.category with | some v => [("category", v)] | none => [])
    ++ (match p.isDone with | some b => [("isDone", JsVal.vBool b)] | none => [])
  2 + (fields.map (fun f => f.1.length + 3 + jsonValLen f.2)).sum + (fields.length - 1)

/-- ALL_CATEGORIES from the shared categories module. -/
def ALL_CATEGORIES : List String := ["scorching", "hot", "warm", "cool", "project"]

/-- validate from the sync module: first failing rule's message. -/
def validate (rules : List (Bool × String)) : Option String :=
  (rules.find? (fun r => r.1)).map (fun r => r.2)

/-- validateTask from the sync module, rule for rule. -/
def validateTask (p : TaskPayload) : Option String := validate
  [((match p.title with
     | some (JsVal.vStr _) => false
     | some _ => true
     | none => false), "Title must be a string"),
   ((match p.title with
     | some (JsVal.vStr s) => jsTrim s = ""
     | _ => false : Bool), "Title cannot be empty"),
   ((match p.title with
     | some (JsVal.vStr s) => decide (500 < utf16Len s)
     | _ => false), "Title too long"),
   ((match p.description with
     | none => false
     | some JsVal.vNull => false
     | some (JsVal.vStr _) => false
     | some _ => true), "Description must be a string"),
   ((match p.description with
     | some (JsVal.vStr s) => decide (5000 < utf16Len s)
     | _ => false), "Description too long"),
   ((match p.category with
     | none => false
     | some (JsVal.vStr s) => !(ALL_CATEGORIES.contains s)
     | some _ => true), "Invalid category"),
   (decide (MAX_PAYLOAD_SIZE < jsonPayloadLen p), "Payload too large")]

/-- Result of addTask / updateTask: the constructed or updated task, a
null for a missing update target, a validation error object, or the
TypeError a runtime-untyped field would raise past validation (not
reachable for payloads the validator accepts). -/
inductive TaskOpResult where
  | ok (t : Task)
  | nullResult
  | invalid (msg : String)
  | typeErr
deriving DecidableEq, Repr

/-- addTask from the sync module: validate, build the task, put it at
the head of the cached list displacing any same-id record, record a
pending create, and schedule the debounced sync (returned as a flag).
The generated pending-change UUID and Date.now are parameters. -/
def addTask (c : LocalCache) (p : TaskPayload) (newPendingId : String) (now : Nat) :
    TaskOpResult × LocalCache × Bool :=
  match validateTask p with
  | some e => (TaskOpResult.invalid e, c, false)
  | none =>
    match p.title with
    | some (JsVal.vStr s) =>
      let task : Task :=
        { id := p.id,
          title := jsTrim s,
          description := (match p.description with
            | some (JsVal.vStr d) => some (jsTrim d)
            | _ => none),
          category := (match p.category with
            | some (JsVal.vStr cs) => some cs
            | _ => none),
          isDone := p.isDone.getD false,
          createdAt := now, updatedAt := now, isDeleted := false }
      let c1 := { c with tasks := task :: c.tasks.filter (fun t => ¬(t.id = task.id)) }
      let c2 := addPendingChange c1 Table.tasks task.id Op.create newPendingId now
      (TaskOpResult.ok task, c2, true)
    | _ => (TaskOpResult.typeErr, c, false)

/-- updateTask from the sync module: validate, find the existing task
(null when absent), apply the provided fields with JS null/undefined
semantics, refresh updatedAt, record a pending update, and schedule the
debounced sync (returned as a flag). -/
def updateTask (c : LocalCache) (p : TaskPayload) (newPendingId : String) (now : Nat) :
    TaskOpResult × LocalCache × Bool :=
  match validateTask p with
  | some e => (TaskOpResult.invalid e, c, false)
  | none =>
    match c.tasks.find? (fun t => t.id = p.id) with
    | none => (TaskOpResult.nullResult, c, false)
    | some existing =>
      let updated : Task :=
        { existing with
          title := (match p.title with
            | some (JsVal.vStr s) => jsTrim s
            | _ => existing.title),
          description := (match p.description with
            | some JsVal.vNull => none
            | some (JsVal.vStr d) => some (jsTrim d)
            | _ => existing.description),
          category := (match p.category with
            | some (JsVal.vStr cs) => some cs
            | _ => existing.category),
          isDone := p.isDone.getD existing.isDone,
          updatedAt := now }
      let c1 := { c with tasks := c.tasks.map (fun t => if t.id = p.id then updated else t) }
      let c2 := addPendingChange c1 Table.tasks p.id Op.update newPendingId now
      (TaskOpResult.ok updated, c2, true)

/-! Spec-side helper definitions used to state the claims. -/

/-- The merged output contains w as its one and only record with id i. -/
def onlyRecordFor {α : Type} (getId : α → String) (out : List α) (i : String) (w : α) : Prop :=
  w ∈ out ∧ ∀ u ∈ out, getId u = i → u = w

/-- One call to addPendingChange: its arguments plus the generated UUID
and the Date.now value of that call. -/
structure PendingCall where
  table : Table
  recordId : String
  operation : Op
  newId : String
  now : Nat
deriving DecidableEq, Repr

/-- The PendingChange entry a call produces. -/
def callEntry (k : PendingCall) : PendingChange :=
  { id := k.newId, table := k.table, recordId := k.recordId,
    operation := k.operation, timestamp := k.now }

/-- Fold a sequence of addPendingChange calls over a cache. -/
def applyPendingCalls (c : LocalCache) (calls : List PendingCall) : LocalCache :=
  calls.foldl
    (fun acc k => addPendingChange acc k.table k.recordId k.operation k.newId k.now) c

/-- The pending entries for one (table, recordId) key. -/
def filterKey (l : List PendingChange) (t : Table) (r : String) : List PendingChange :=
  l.filter (fun p => p.table = t ∧ p.recordId = r)

/-- The most recent call in a sequence addressing one (table, recordId)
key. -/
def lastCallFor (calls : List PendingCall) (t : Table) (r : String) : Option PendingCall :=
  calls.reverse.find? (fun k => k.table = t ∧ k.recordId = r)

/-! Supporting lemmas. -/

theorem mem_dedupFirstAux {l seen : List String} {x : String} :
    x ∈ dedupFirstAux l seen ↔ x ∈ l ∧ x ∉ seen := by
  induction l generalizing seen with
  | nil => simp [dedupFirstAux]
  | cons y ys ih =>
    simp only [dedupFirstAux]
    by_cases hy : y ∈ seen
    · rw [if_pos hy, ih, List.mem_cons]
      constructor
      · rintro ⟨h1, h2⟩
        exact ⟨Or.inr h1, h2⟩
      · rintro ⟨h1 | h1, h2⟩
        · exact absurd (h1 ▸ hy) h2
        · exact ⟨h1, h2⟩
    · rw [if_neg hy]
      simp only [List.mem_cons, ih]
      constructor
      · rintro (rfl | ⟨h1, h2⟩)
        · exact ⟨Or.inl rfl, hy⟩
        · exact ⟨Or.inr h1, fun hs => h2 (Or.inr hs)⟩
      · rintro ⟨h1 | h1, h2⟩
        · exact Or.inl h1
        · by_cases hxy : x = y
          · exact Or.inl hxy
          · exact Or.inr ⟨h1, fun hs => hs.elim hxy h2⟩

theorem mem_dedupFirst {l : List String} {x : String} :
    x ∈ dedupFirst l ↔ x ∈ l := by
  unfold dedupFirst
  rw [mem_dedupFirstAux]
  simp

theorem nodup_dedupFirstAux (l seen : List String) : (dedupFirstAux l seen).Nodup := by
  induction l generalizing seen with
  | nil => simp [dedupFirstAux]
  | cons y ys ih =>
    simp only [dedupFirstAux]
    by_cases hy : y ∈ seen
    · rw [if_pos hy]
      exact ih seen
    · rw [if_neg hy]
      refine List.nodup_cons.mpr ⟨?_, ih (y :: seen)⟩
      intro hmem
      exact (mem_dedupFirstAux.mp hmem).2 (List.mem_cons_self y seen)

theorem nodup_dedupFirst (l : List String) : (dedupFirst l).Nodup :=
  nodup_dedupFirstAux l []

theorem jsMapGet_eq_some_of {α : Type} {getId : α → String} {recs : List α}
    {k : String} {v : α}
    (h : jsMapGet (recs.map (fun r => (getId r, r))) k = some v) :
    getId v = k ∧ v ∈ recs := by
  unfold jsMapGet at h
  rcases Option.map_eq_some'.mp h with ⟨e, hfind, hev⟩
  have hp := List.find?_some hfind
  have he1 : e.1 = k := by simpa using hp
  have hmem := List.mem_of_find?_eq_some hfind
  rw [List.mem_reverse] at hmem
  rcases List.mem_map.mp hmem with ⟨r, hr, hre⟩
  have h2 : r = v := by
    have := congrArg Prod.snd hre
    simpa [hev] using this
  have h1 : getId r = k := by
    have := congrArg Prod.fst hre
    simpa [he1] using this
  subst h2
  exact ⟨h1, hr⟩

theorem jsMapGet_mem_keys {α : Type} {getId : α → String} {recs : List α}
    {k : String} {v : α}
    (h : jsMapGet (recs.map (fun r => (getId r, r))) k = some v) :
    k ∈ recs.map getId := by
  rcases jsMapGet_eq_some_of h with ⟨h1, h2⟩
  exact List.mem_map.mpr ⟨v, h2, h1⟩

theorem mem_mergeAllIds {α : Type} {getId : α → String} {nasRecs localRecs : List α}
    {i : String} :
    i ∈ dedupFirst (jsMapKeys (nasRecs.map (fun r => (getId r, r))) ++
                    jsMapKeys (localRecs.map (fun r => (getId r, r)))) ↔
      i ∈ nasRecs.map getId ∨ i ∈ localRecs.map getId := by
  rw [mem_dedupFirst, List.mem_append]
  unfold jsMapKeys
  rw [mem_dedupFirst, mem_dedupFirst]
  simp [List.map_map, Function.comp]

theorem mergeStep_some {α : Type} (getId : α → String) {getUpd : α → Nat}
    {pendingIds : List String} {nasRecs localRecs : List α} {i : String} {u : α}
    (h : mergeStep getUpd pendingIds (nasRecs.map (fun r => (getId r, r)))
          (localRecs.map (fun r => (getId r, r))) i = some u) :
    getId u = i ∧ (u ∈ nasRecs ∨ u ∈ localRecs) := by
  simp only [mergeStep] at h
  by_cases hp : i ∈ pendingIds
  · rw [if_pos hp] at h
    rcases jsMapGet_eq_some_of h with ⟨h1, h2⟩
    exact ⟨h1, Or.inr h2⟩
  · rw [if_neg hp] at h
    rcases hnas : jsMapGet (nasRecs.map (fun r => (getId r, r))) i with _ | n <;>
      rcases hloc : jsMapGet (localRecs.map (fun r => (getId r, r))) i with _ | l <;>
        rw [hnas, hloc] at h
    · exact absurd h (by simp)
    · rcases jsMapGet_eq_some_of hloc with ⟨h1, h2⟩
      have : l = u := by simpa using h
      subst this
      exact ⟨h1, Or.inr h2⟩
    · rcases jsMapGet_eq_some_of hnas with ⟨h1, h2⟩
      have : n = u := by simpa using h
      subst this
      exact ⟨h1, Or.inl h2⟩
    · rcases jsMapGet_eq_some_of hnas with ⟨hn1, hn2⟩
      rcases jsMapGet_eq_some_of hloc with ⟨hl1, hl2⟩
      have hu : (if getUpd l ≤ getUpd n then n else l) = u := by simpa using h
      by_cases hle : getUpd l ≤ getUpd n
      · rw [if_pos hle] at hu
        subst hu
        exact ⟨hn1, Or.inl hn2⟩
      · rw [if_neg hle] at hu
        subst hu
        exact ⟨hl1, Or.inr hl2⟩

theorem mem_mergeRecords {α : Type} {getId : α → String} {getUpd : α → Nat}
    {pendingIds : List String} {nasRecs localRecs : List α} {u : α} :
    u ∈ mergeRecords getId getUpd pendingIds nasRecs localRecs ↔
      ∃ i, i ∈ dedupFirst (jsMapKeys (nasRecs.map (fun r => (getId r, r))) ++
                           jsMapKeys (localRecs.map (fun r => (getId r, r)))) ∧
        mergeStep getUpd pendingIds (nasRecs.map (fun r => (getId r, r)))
          (localRecs.map (fun r => (getId r, r))) i = some u := by
  simp [mergeRecords, List.mem_filterMap]

theorem mergeRecords_at {α : Type} {getId : α → String} {getUpd : α → Nat}
    {pendingIds : List String} {nasRecs localRecs : List α} {i : String} {w : α}
    (hstep : mergeStep getUpd pendingIds (nasRecs.map (fun r => (getId r, r)))
      (localRecs.map (fun r => (getId r, r))) i = some w)
    (hin : i ∈ nasRecs.map getId ∨ i ∈ localRecs.map getId) :
    onlyRecordFor getId (mergeRecords getId getUpd pendingIds nasRecs localRecs) i w := by
  constructor
  · exact mem_mergeRecords.mpr ⟨i, mem_mergeAllIds.mpr hin, hstep⟩
  · intro u hu hui
    rcases mem_mergeRecords.mp hu with ⟨j, _, hj⟩
    have hid := (mergeStep_some getId hj).1
    rw [hui] at hid
    subst hid
    rw [hstep] at hj
    exact (Option.some_inj.mp hj).symm

theorem mergeRecords_omits {α : Type} {getId : α → String} {getUpd : α → Nat}
    {pendingIds : List String} {nasRecs localRecs : List α} {i : String}
    (hstep : mergeStep getUpd pendingIds (nasRecs.map (fun r => (getId r, r)))
      (localRecs.map (fun r => (getId r, r))) i = none) :
    ∀ u ∈ mergeRecords getId getUpd pendingIds nasRecs localRecs, getId u ≠ i := by
  intro u hu hui
  rcases mem_mergeRecords.mp hu with ⟨j, _, hj⟩
  have hid := (mergeStep_some getId hj).1
  rw [hui] at hid
  subst hid
  rw [hstep] at hj
  exact Option.noConfusion hj

theorem pairwise_filterMap_ids {α : Type} (getId : α → String) (f : String → Option α)
    (l : List String) (hl : l.Nodup) (hf : ∀ j u, f j = some u → getId u = j) :
    List.Pairwise (fun a b => getId a ≠ getId b) (l.filterMap f) := by
  induction l with
  | nil => simp
  | cons k l ih =>
    rw [List.filterMap_cons]
    rcases List.nodup_cons.mp hl with ⟨hk, hl2⟩
    cases hfk : f k with
    | none => exact ih hl2
    | some u =>
      refine List.Pairwise.cons ?_ (ih hl2)
      intro v hv
      rcases List.mem_filterMap.mp hv with ⟨j, hj, hfj⟩
      rw [hf _ _ hfk, hf _ _ hfj]
      exact fun h => hk (h ▸ hj)

theorem mergeRecords_pairwise {α : Type} (getId : α → String) (getUpd : α → Nat)
    (pendingIds : List String) (nasRecs localRecs : List α) :
    List.Pairwise (fun a b => getId a ≠ getId b)
      (mergeRecords getId getUpd pendingIds nasRecs localRecs) := by
  unfold mergeRecords
  exact pairwise_filterMap_ids getId _ _ (nodup_dedupFirst _)
    (fun j u hj => (mergeStep_some getId hj).1)

theorem filterKey_addPendingChange (c : LocalCache) (t' : Table) (r' : String)
    (op : Op) (nid : String) (now : Nat) (t : Table) (r : String) :
    filterKey (addPendingChange c t' r' op nid now).pendingChanges t r =
      (if t' = t ∧ r' = r then
        [{ id := nid, table := t', recordId := r', operation := op, timestamp := now }]
      else filterKey c.pendingChanges t r) := by
  unfold addPendingChange filterKey
  rw [List.filter_append]
  by_cases h : t' = t ∧ r' = r
  · rw [if_pos h]
    have h1 : (c.pendingChanges.filter
        (fun p => ¬(p.table = t' ∧ p.recordId = r'))).filter
          (fun p => p.table = t ∧ p.recordId = r) = [] := by
      rw [List.filter_filter]
      apply List.filter_eq_nil_iff.mpr
      intro p _
      simp only [Bool.and_eq_true, decide_eq_true_eq, not_and]
      rintro ⟨hp1, hp2⟩
      simp [h.1, h.2, hp1, hp2]
    rw [h1]
    simp [h.1, h.2]
  · rw [if_neg h]
    have h2 : List.filter (fun p => decide (p.table = t ∧ p.recordId = r))
        [({ id := nid, table := t', recordId := r', operation := op,
            timestamp := now } : PendingChange)] = [] := by
      simp only [List.filter_singleton, cond_eq_if]
      rw [if_neg]
      simpa using h
    rw [h2, List.append_nil, List.filter_filter]
    apply List.filter_congr
    intro p _
    by_cases hp : p.table = t ∧ p.recordId = r
    · have hne : ¬(p.table = t' ∧ p.recordId = r') := by
        rintro ⟨hq1, hq2⟩
        exact h ⟨hq1 ▸ hp.1, hq2 ▸ hp.2⟩
      simp only [hp, hne]
      simp [hp.1, hp.2]
      by_cases htt : t = t'
      · right
        intro hrr
        exact h ⟨htt.symm, hrr.symm⟩
      · left
        exact htt
    · simp [hp]

theorem filterKey_applyPendingCalls (calls : List PendingCall) (c : LocalCache)
    (t : Table) (r : String) :
    filterKey (applyPendingCalls c calls).pendingChanges t r =
      (match lastCallFor calls t r with
       | some k => [callEntry k]
       | none => filterKey c.pendingChanges t r) := by
  induction calls generalizing c with
  | nil => simp [applyPendingCalls, lastCallFor]
  | cons k ks ih =>
    have happ : applyPendingCalls c (k :: ks) =
        applyPendingCalls (addPendingChange c k.table k.recordId k.operation k.newId k.now) ks := by
      simp [applyPendingCalls]
    rw [happ, ih]
    have hlast : lastCallFor (k :: ks) t r =
        (lastCallFor ks t r).or
          (if k.table = t ∧ k.recordId = r then some k else none) := by
      unfold lastCallFor
      rw [List.reverse_cons, List.find?_append]
      cases hf : (ks.reverse.find? fun q => decide (q.table = t ∧ q.recordId = r)) with
      | some q => simp [hf]
      | none =>
        simp only [hf, Option.none_or]
        by_cases hk : k.table = t ∧ k.recordId = r
        · simp [hk]
        · simp [hk]
    rw [hlast]
    cases hf : lastCallFor ks t r with
    | some q => simp
    | none =>
      simp only [Option.none_or]
      rw [filterKey_addPendingChange]
      by_cases hk : k.table = t ∧ k.recordId = r
      · rw [if_pos hk]
        simp only [hk.1, hk.2, if_pos hk]
        rcases hk with ⟨hk1, hk2⟩
        subst hk1
        subst hk2
        simp [callEntry]
      · rw [if_neg hk, if_neg hk]

theorem validate_isSome_of_mem {rules : List (Bool × String)} {r : Bool × String}
    (hr : r ∈ rules) (hb : r.1 = true) : (validate rules).isSome := by
  have hfind : (List.find? (fun q => q.1) rules).isSome :=
    List.find?_isSome.mpr ⟨r, hr, hb⟩
  rcases Option.isSome_iff_exists.mp hfind with ⟨q, hq⟩
  unfold validate
  rw [hq]
  simp

theorem mergeRecords_pending_case {α : Type} (getId : α → String) (getUpd : α → Nat)
    {pendingIds : List String} (nasRecs localRecs : List α) {i : String}
    (hp : i ∈ pendingIds) :
    (∀ t, jsMapGet (localRecs.map (fun r => (getId r, r))) i = some t →
        onlyRecordFor getId (mergeRecords getId getUpd pendingIds nasRecs localRecs) i t)
    ∧ (jsMapGet (localRecs.map (fun r => (getId r, r))) i = none →
        ∀ u ∈ mergeRecords getId getUpd pendingIds nasRecs localRecs, getId u ≠ i) := by
  have hstep : mergeStep getUpd pendingIds (nasRecs.map (fun r => (getId r, r)))
      (localRecs.map (fun r => (getId r, r))) i =
      jsMapGet (localRecs.map (fun r => (getId r, r))) i := by
    simp [mergeStep, hp]
  constructor
  · intro t ht
    refine mergeRecords_at (by rw [hstep, ht]) ?_
    exact Or.inr (jsMapGet_mem_keys ht)
  · intro hnone
    exact mergeRecords_omits (by rw [hstep, hnone])

theorem mergeRecords_lww_case {α : Type} (getId : α → String) (getUpd : α → Nat)
    {pendingIds : List String} (nasRecs localRecs : List α) {i : String}
    (hp : i ∉ pendingIds) :
    (∀ n l, jsMapGet (nasRecs.map (fun r => (getId r, r))) i = some n →
        jsMapGet (localRecs.map (fun r => (getId r, r))) i = some l →
        ((getUpd l < getUpd n →
            onlyRecordFor getId (mergeRecords getId getUpd pendingIds nasRecs localRecs) i n)
         ∧ (getUpd n < getUpd l →
            onlyRecordFor getId (mergeRecords getId getUpd pendingIds nasRecs localRecs) i l)
         ∧ (getUpd n = getUpd l →
            onlyRecordFor getId (mergeRecords getId getUpd pendingIds nasRecs localRecs) i n)))
    ∧ (∀ n, jsMapGet (nasRecs.map (fun r => (getId r, r))) i = some n →
        jsMapGet (localRecs.map (fun r => (getId r, r))) i = none →
        onlyRecordFor getId (mergeRecords getId getUpd pendingIds nasRecs localRecs) i n)
    ∧ (∀ l, jsMapGet (nasRecs.map (fun r => (getId r, r))) i = none →
        jsMapGet (localRecs.map (fun r => (getId r, r))) i = some l →
        onlyRecordFor getId (mergeRecords getId getUpd pendingIds nasRecs localRecs) i l) := by
  refine ⟨?_, ?_, ?_⟩
  · intro n l hn hl
    have hstep : mergeStep getUpd pendingIds (nasRecs.map (fun r => (getId r, r)))
        (localRecs.map (fun r => (getId r, r))) i =
        some (if getUpd l ≤ getUpd n then n else l) := by
      simp [mergeStep, hp, hn, hl]
    refine ⟨?_, ?_, ?_⟩
    · intro hlt
      refine mergeRecords_at ?_ (Or.inl (jsMapGet_mem_keys hn))
      rw [hstep, if_pos (le_of_lt hlt)]
    · intro hlt
      refine mergeRecords_at ?_ (Or.inl (jsMapGet_mem_keys hn))
      rw [hstep, if_neg (not_le.mpr hlt)]
    · intro heq
      refine mergeRecords_at ?_ (Or.inl (jsMapGet_mem_keys hn))
      rw [hstep, if_pos (le_of_eq heq.symm)]
  · intro n hn hl
    refine mergeRecords_at ?_ (Or.inl (jsMapGet_mem_keys hn))
    simp [mergeStep, hp, hn, hl]
  · intro l hn hl
    refine mergeRecords_at ?_ (Or.inr (jsMapGet_mem_keys hl))
    simp [mergeStep, hp, hn, hl]

/-- C1: for every record id with a pending change in the local cache's
pendingChanges under the matching table, mergeData keeps exactly the
local version of the record when the local cache has one and omits the
id entirely otherwise; the shared-side copy is never chosen. -/
theorem claim1_pending_precedence :
    ∀ (l : LocalCache) (nas : NasStore) (i : String),
    (i ∈ pendingIdsFor l.pendingChanges Table.tasks →
      (∀ t : Task, jsMapGet (l.tasks.map (fun r => (r.id, r))) i = some t →
          onlyRecordFor Task.id (mergeData l nas).1 i t)
      ∧ (jsMapGet (l.tasks.map (fun r => (r.id, r))) i = none →
          ∀ u ∈ (mergeData l nas).1, u.id ≠ i))
    ∧ (i ∈ pendingIdsFor l.pendingChanges Table.notes →
      (∀ t : Note, jsMapGet (l.notes.map (fun r => (r.id, r))) i = some t →
          onlyRecordFor Note.id (mergeData l nas).2 i t)
      ∧ (jsMapGet (l.notes.map (fun r => (r.id, r))) i = none →
          ∀ u ∈ (mergeData l nas).2, u.id ≠ i)) := by
  intro l nas i
  constructor
  · intro hp
    exact mergeRecords_pending_case Task.id Task.updatedAt nas.tasks l.tasks hp
  · intro hp
    exact mergeRecords_pending_case Note.id Note.updatedAt nas.notes l.notes hp

/-- Witness for C1 at a concrete input: the task with id a has a pending
change, the shared side has a newer copy, and merge keeps exactly the
local version. -/
theorem claim1_pending_precedence_witness :
    onlyRecordFor Task.id
      (mergeData
        { tasks := [{ id := "a", title := "local", description := none, category := none,
                      isDone := false, createdAt := 0, updatedAt := 1, isDeleted := false }],
          notes := [], lastNasSyncAt := 0,
          pendingChanges := [{ id := "p1", table := Table.tasks, recordId := "a",
                               operation := Op.update, timestamp := 5 }] }
        { tasks := [{ id := "a", title := "shared", description := none, category := none,
                      isDone := false, createdAt := 0, updatedAt := 99, isDeleted := false }],
          notes := [], lastModifiedAt := 0, lastModifiedBy := "m" }).1
      "a"
      { id := "a", title := "local", description := none, category := none,
        isDone := false, createdAt := 0, updatedAt := 1, isDeleted := false } :=
  ((claim1_pending_precedence
    { tasks := [{ id := "a", title := "local", description := none, category := none,
                  isDone := false, createdAt := 0, updatedAt := 1, isDeleted := false }],
      notes := [], lastNasSyncAt := 0,
      pendingChanges := [{ id := "p1", table := Table.tasks, recordId := "a",
                           operation := Op.update, timestamp := 5 }] }
    { tasks := [{ id := "a", title := "shared", description := none, category := none,
                  isDone := false, createdAt := 0, updatedAt := 99, isDeleted := false }],
      notes := [], lastModifiedAt := 0, lastModifiedBy := "m" }
    "a").1 (by decide)).1 _ (by decide)

/-- C2: for an id with no pending change present on both sides,
mergeData keeps the version with the strictly greater updatedAt and
prefers the shared (NAS) copy on a tie; it is deterministic, and an id
present on one side only is carried through unchanged. -/
theorem claim2_lww_determinism :
    ∀ (l : LocalCache) (nas : NasStore) (i : String),
    (i ∉ pendingIdsFor l.pendingChanges Table.tasks →
      (∀ n t : Task, jsMapGet (nas.tasks.map (fun r => (r.id, r))) i = some n →
          jsMapGet (l.tasks.map (fun r => (r.id, r))) i = some t →
          ((t.updatedAt < n.updatedAt → onlyRecordFor Task.id (mergeData l nas).1 i n)
           ∧ (n.updatedAt < t.updatedAt → onlyRecordFor Task.id (mergeData l nas).1 i t)
           ∧ (n.updatedAt = t.updatedAt → onlyRecordFor Task.id (mergeData l nas).1 i n)))
      ∧ (∀ n : Task, jsMapGet (nas.tasks.map (fun r => (r.id, r))) i = some n →
          jsMapGet (l.tasks.map (fun r => (r.id, r))) i = none →
          onlyRecordFor Task.id (mergeData l nas).1 i n)
      ∧ (∀ t : Task, jsMapGet (nas.tasks.map (fun r => (r.id, r))) i = none →
          jsMapGet (l.tasks.map (fun r => (r.id, r))) i = some t →
          onlyRecordFor Task.id (mergeData l nas).1 i t))
    ∧ (i ∉ pendingIdsFor l.pendingChanges Table.notes →
      (∀ n t : Note, jsMapGet (nas.notes.map (fun r => (r.id, r))) i = some n →
          jsMapGet (l.notes.map (fun r => (r.id, r))) i = some t →
          ((t.updatedAt < n.updatedAt → onlyRecordFor Note.id (mergeData l nas).2 i n)
           ∧ (n.updatedAt < t.updatedAt → onlyRecordFor Note.id (mergeData l nas).2 i t)
           ∧ (n.updatedAt = t.updatedAt → onlyRecordFor Note.id (mergeData l nas).2 i n)))
      ∧ (∀ n : Note, jsMapGet (nas.notes.map (fun r => (r.id, r))) i = some n →
          jsMapGet (l.notes.map (fun r => (r.id, r))) i = none →
          onlyRecordFor Note.id (mergeData l nas).2 i n)
      ∧ (∀ t : Note, jsMapGet (nas.notes.map (fun r => (r.id, r))) i = none →
          jsMapGet (l.notes.map (fun r => (r.id, r))) i = some t →
          onlyRecordFor Note.id (mergeData l nas).2 i t))
    ∧ mergeData l nas = mergeData l nas := by
  intro l nas i
  refine ⟨?_, ?_, rfl⟩
  · intro hp
    exact mergeRecords_lww_case Task.id Task.updatedAt nas.tasks l.tasks hp
  · intro hp
    exact mergeRecords_lww_case Note.id Note.updatedAt nas.notes l.notes hp

/-- Witness for C2 at a concrete input: no pending change, both sides
hold id a with equal updatedAt, and merge keeps the shared copy. -/
theorem claim2_lww_determinism_witness :
    onlyRecordFor Task.id
      (mergeData
        { tasks := [{ id := "a", title := "local", description := none, category := none,
                      isDone := false, createdAt := 0, updatedAt := 7, isDeleted := false }],
          notes := [], pendingChanges := [], lastNasSyncAt := 0 }
        { tasks := [{ id := "a", title := "shared", description := none, category := none,
                      isDone := false, createdAt := 0, updatedAt := 7, isDeleted := false }],
          notes := [], lastModifiedAt := 0, lastModifiedBy := "m" }).1
      "a"
      { id := "a", title := "shared", description := none, category := none,
        isDone := false, createdAt := 0, updatedAt := 7, isDeleted := false } :=
  ((((claim2_lww_determinism
    { tasks := [{ id := "a", title := "local", description := none, category := none,
                  isDone := false, createdAt := 0, updatedAt := 7, isDeleted := false }],
      notes := [], pendingChanges := [], lastNasSyncAt := 0 }
    { tasks := [{ id := "a", title := "shared", description := none, category := none,
                  isDone := false, createdAt := 0, updatedAt := 7, isDeleted := false }],
      notes := [], lastModifiedAt := 0, lastModifiedBy := "m" }
    "a").1 (by decide)).1
      { id := "a", title := "shared", description := none, category := none,
        isDone := false, createdAt := 0, updatedAt := 7, isDeleted := false }
      { id := "a", title := "local", description := none, category := none,
        isDone := false, createdAt := 0, updatedAt := 7, isDeleted := false }
      (by decide) (by decide)).2.2 rfl)

/-- C3: over any sequence of addPendingChange calls starting from the
default cache, the pending list holds at most one entry per
(table, recordId) key, and that entry carries the operation and
timestamp of the most recent call for that key. -/
theorem claim3_pending_coalescing :
    ∀ (calls : List PendingCall) (t : Table) (r : String),
    (filterKey (applyPendingCalls getDefaultCache calls).pendingChanges t r).length ≤ 1
    ∧ filterKey (applyPendingCalls getDefaultCache calls).pendingChanges t r =
        (match lastCallFor calls t r with
         | some k => [callEntry k]
         | none => []) := by
  intro calls t r
  have h := filterKey_applyPendingCalls calls getDefaultCache t r
  have hdef : filterKey getDefaultCache.pendingChanges t r = [] := rfl
  rw [hdef] at h
  refine ⟨?_, h⟩
  rw [h]
  cases lastCallFor calls t r <;> simp

/-- C10: mergeData's outputs contain at most one record per id, and
every output record is one of the input records, unmodified, from the
local or the shared side. -/
theorem claim10_merge_wellformed :
    ∀ (l : LocalCache) (nas : NasStore),
    ((∀ t ∈ (mergeData l nas).1, t ∈ l.tasks ∨ t ∈ nas.tasks)
     ∧ List.Pairwise (fun a b : Task => a.id ≠ b.id) (mergeData l nas).1)
    ∧ ((∀ n ∈ (mergeData l nas).2, n ∈ l.notes ∨ n ∈ nas.notes)
     ∧ List.Pairwise (fun a b : Note => a.id ≠ b.id) (mergeData l nas).2) := by
  intro l nas
  refine ⟨⟨?_, ?_⟩, ?_, ?_⟩
  · intro t ht
    rcases mem_mergeRecords.mp ht with ⟨j, _, hj⟩
    exact ((mergeStep_some Task.id hj).2).symm
  · exact mergeRecords_pairwise Task.id Task.updatedAt _ _ _
  · intro n hn
    rcases mem_mergeRecords.mp hn with ⟨j, _, hj⟩
    exact ((mergeStep_some Note.id hj).2).symm
  · exact mergeRecords_pairwise Note.id Note.updatedAt _ _ _

/-- Witness for C10 at a concrete input: the single merged task is one
of the inputs. -/
theorem claim10_merge_wellformed_witness :
    { id := "a", title := "shared", description := none, category := none,
      isDone := false, createdAt := 0, updatedAt := 7, isDeleted := false } ∈
        ({ tasks := [], notes := [], pendingChanges := [], lastNasSyncAt := 0 } : LocalCache).tasks
    ∨ { id := "a", title := "shared", description := none, category := none,
        isDone := false, createdAt := 0, updatedAt := 7, isDeleted := false } ∈
        ({ tasks := [{ id := "a", title := "shared", description := none, category := none,
                       isDone := false, createdAt := 0, updatedAt := 7, isDeleted := false }],
           notes := [], lastModifiedAt := 0, lastModifiedBy := "m" } : NasStore).tasks :=
  (claim10_merge_wellformed
    { tasks := [], notes := [], pendingChanges := [], lastNasSyncAt := 0 }
    { tasks := [{ id := "a", title := "shared", description := none, category := none,
                  isDone := false, createdAt := 0, updatedAt := 7, isDeleted := false }],
      notes := [], lastModifiedAt := 0, lastModifiedBy := "m" }).1.1 _ (by decide)

/-- C4: evaluation of the circuit breaker code at a failed half-open
probe. With the circuit open, past its reset time (so a probe is
allowed), and the stored backoff at 60 seconds, a sync failure leaves
the backoff undoubled and the reset time unchanged in the past, so an
attempt is allowed again immediately afterwards — the circuit does not
reopen with a doubled backoff and a future reset time as the claim
states. The guard in onSyncFailure fires only when the circuit is
closed, and every open-to-closed transition resets the backoff to the
floor, so the doubling branch can never affect a later open period. -/
theorem claim4_failed_probe_divergence :
    isCircuitBreakerAllowing
      { syncErrorCount := 5, currentBackoffMs := 60000,
        circuitBreakerOpen := true, circuitBreakerResetTime := 1000 } 2000 = true
    ∧ onSyncFailure
        { syncErrorCount := 5, currentBackoffMs := 60000,
          circuitBreakerOpen := true, circuitBreakerResetTime := 1000 } 2000 =
      { syncErrorCount := 6, currentBackoffMs := 60000,
        circuitBreakerOpen := true, circuitBreakerResetTime := 1000 }
    ∧ isCircuitBreakerAllowing
        (onSyncFailure
          { syncErrorCount := 5, currentBackoffMs := 60000,
            circuitBreakerOpen := true, circuitBreakerResetTime := 1000 } 2000) 2001 = true
    ∧ onSyncSuccess
        { syncErrorCount := 5, currentBackoffMs := 60000,
          circuitBreakerOpen := true, circuitBreakerResetTime := 1000 } =
      { syncErrorCount := 0, currentBackoffMs := MIN_BACKOFF_MS,
        circuitBreakerOpen := false, circuitBreakerResetTime := 1000 } := by
  refine ⟨rfl, ?_, rfl, rfl⟩
  decide

/-- C5: on the failure that brings the consecutive error count to the
threshold of 5 while the circuit is closed, the circuit opens with
reset time now + current backoff (initially 30 seconds), and while the
circuit is open with the reset time not yet reached, neither the
periodic-timer guard nor the debounced-sync guard starts an attempt. -/
theorem claim5_breaker_opens_and_suppresses :
    (∀ (s : BreakerState) (now : Nat),
      s.syncErrorCount = 4 → s.circuitBreakerOpen = false →
      (onSyncFailure s now).circuitBreakerOpen = true ∧
      (onSyncFailure s now).circuitBreakerResetTime = now + s.currentBackoffMs)
    ∧ initialBreakerState.currentBackoffMs = 30000
    ∧ (∀ (s : BreakerState) (now : Nat) (inProgress : Bool),
        s.circuitBreakerOpen = true → now < s.circuitBreakerResetTime →
        schedulerTickStarts inProgress s now = false ∧
        debouncedSyncStarts inProgress s now = false) := by
  refine ⟨?_, rfl, ?_⟩
  · intro s now h4 hclosed
    have hcond : MAX_CONSECUTIVE_ERRORS ≤ s.syncErrorCount + 1 ∧ s.circuitBreakerOpen = false := by
      constructor
      · rw [h4]
        decide
      · exact hclosed
    unfold onSyncFailure
    rw [if_pos hcond]
    exact ⟨rfl, rfl⟩
  · intro s now inProgress hopen hlt
    have hallow : isCircuitBreakerAllowing s now = false := by
      unfold isCircuitBreakerAllowing
      rw [hopen]
      simp only [Bool.true_eq_false, if_false]
      rw [if_neg (by omega)]
    constructor
    · unfold schedulerTickStarts
      rw [hallow, Bool.and_false]
    · unfold debouncedSyncStarts
      rw [hallow, Bool.and_false]

/-- Witness for C5 at a concrete input: the fifth failure opens the
circuit with reset time 100 + 30000, and while it is open before the
reset time the scheduler guard does not start a sync. -/
theorem claim5_breaker_opens_and_suppresses_witness :
    ((onSyncFailure
        { syncErrorCount := 4, currentBackoffMs := 30000,
          circuitBreakerOpen := false, circuitBreakerResetTime := 0 } 100).circuitBreakerOpen = true
      ∧ (onSyncFailure
          { syncErrorCount := 4, currentBackoffMs := 30000,
            circuitBreakerOpen := false, circuitBreakerResetTime := 0 } 100).circuitBreakerResetTime
        = 100 + 30000)
    ∧ schedulerTickStarts false
        { syncErrorCount := 5, currentBackoffMs := 60000,
          circuitBreakerOpen := true, circuitBreakerResetTime := 30100 } 200 = false :=
  ⟨claim5_breaker_opens_and_suppresses.1
      { syncErrorCount := 4, currentBackoffMs := 30000,
        circuitBreakerOpen := false, circuitBreakerResetTime := 0 } 100 rfl rfl,
   (claim5_breaker_opens_and_suppresses.2.2
      { syncErrorCount := 5, currentBackoffMs := 60000,
        circuitBreakerOpen := true, circuitBreakerResetTime := 30100 } 200 false rfl
      (by decide)).1⟩

/-- C6: in a sync round with pending changes, the pending list is
cleared and the records and both lastSync fields are updated exactly
when the write of the merged snapshot succeeds; on a failed write the
cache is returned unchanged and the round reports failure. The store
handed to the write is the merged snapshot in both cases. -/
theorem claim6_clear_iff_write_succeeds :
    ∀ (localCache : LocalCache) (nasData : NasStore) (machineId : String)
      (now : Nat) (w : Bool),
    localCache.pendingChanges ≠ [] →
    (w = true →
      syncWithNasLocked localCache nasData machineId now w =
        { cache := { tasks := (mergeData localCache nasData).1,
                     notes := (mergeData localCache nasData).2,
                     pendingChanges := [], lastNasSyncAt := now },
          written := some { tasks := (mergeData localCache nasData).1,
                            notes := (mergeData localCache nasData).2,
                            lastModifiedAt := now, lastModifiedBy := machineId },
          configLastSyncAt := some now, success := true })
    ∧ (w = false →
      syncWithNasLocked localCache nasData machineId now w =
        { cache := localCache,
          written := some { tasks := (mergeData localCache nasData).1,
                            notes := (mergeData localCache nasData).2,
                            lastModifiedAt := now, lastModifiedBy := machineId },
          configLastSyncAt := none, success := false }) := by
  intro localCache nasData machineId now w hpend
  have hlen : 0 < localCache.pendingChanges.length := List.length_pos.mpr hpend
  constructor
  · rintro rfl
    simp [syncWithNasLocked, hlen, clearPendingChanges]
  · rintro rfl
    simp [syncWithNasLocked, hlen]

/-- Witness for C6 at a concrete input: with one pending change, a
successful write clears the pending list and a failed write leaves the
cache untouched. -/
theorem claim6_clear_iff_write_succeeds_witness :
    syncWithNasLocked
      { tasks := [], notes := [],
        pendingChanges := [{ id := "p1", table := Table.tasks, recordId := "a",
                             operation := Op.delete, timestamp := 5 }],
        lastNasSyncAt := 0 }
      { tasks := [], notes := [], lastModifiedAt := 0, lastModifiedBy := "m" }
      "m2" 50 false =
      { cache := { tasks := [], notes := [],
                   pendingChanges := [{ id := "p1", table := Table.tasks, recordId := "a",
                                        operation := Op.delete, timestamp := 5 }],
                   lastNasSyncAt := 0 },
        written := some { tasks := [], notes := [], lastModifiedAt := 50,
                          lastModifiedBy := "m2" },
        configLastSyncAt := none, success := false } :=
  (claim6_clear_iff_write_succeeds
    { tasks := [], notes := [],
      pendingChanges := [{ id := "p1", table := Table.tasks, recordId := "a",
                           operation := Op.delete, timestamp := 5 }],
      lastNasSyncAt := 0 }
    { tasks := [], notes := [], lastModifiedAt := 0, lastModifiedBy := "m" }
    "m2" 50 false (by decide)).2 rfl

/-- C7: a network-class failure of the exclusive create makes
acquireLock return immediately with acquired false and the network-error
flag set, consuming none of the remaining poll iterations; an EEXIST
failure is retried on the remaining iterations, and an exhausted
iteration budget is the acquisition timeout. -/
theorem claim7_network_abort_eexist_retry :
    (∀ (code : String), isNetworkError code = true →
      ∀ (step : LockEnvStep) (rest : List LockEnvStep)
        (mid : String) (pid : Nat) (nonce : String),
        step.readResult = none → step.createOutcome = FsWriteOutcome.err code →
        acquireLock mid pid nonce (step :: rest) =
          ({ acquired := false, networkError := true, nonce := none }, []))
    ∧ (∀ (step : LockEnvStep) (rest : List LockEnvStep)
        (mid : String) (pid : Nat) (nonce : String),
        step.readResult = none → step.createOutcome = FsWriteOutcome.err "EEXIST" →
        acquireLock mid pid nonce (step :: rest) = acquireLock mid pid nonce rest)
    ∧ (∀ (mid : String) (pid : Nat) (nonce : String),
        acquireLock mid pid nonce [] =
          ({ acquired := false, networkError := false, nonce := none }, [])) := by
  refine ⟨?_, ?_, fun mid pid nonce => rfl⟩
  · intro code hcode step rest mid pid nonce hread hcreate
    have hne : code ≠ "EEXIST" := by
      intro h
      rw [h] at hcode
      exact absurd hcode (by decide)
    have htc : tryCreateLockExclusive (FsWriteOutcome.err code) =
        LockCreateResult.network code := by
      simp [tryCreateLockExclusive, hne, hcode]
    conv_lhs => rw [acquireLock]
    rw [hread, hcreate, htc]
  · intro step rest mid pid nonce hread hcreate
    have htc : tryCreateLockExclusive (FsWriteOutcome.err "EEXIST") =
        LockCreateResult.lockExists := by
      simp [tryCreateLockExclusive]
    conv_lhs => rw [acquireLock]
    rw [hread, hcreate, htc]

/-- Witness for C7 at concrete inputs: an ETIMEDOUT create aborts at
once even with budget left; an EEXIST create retries into the rest of
the script; an empty script times out. -/
theorem claim7_network_abort_eexist_retry_witness :
    acquireLock "m" 1 "n"
        [{ readResult := none, createOutcome := FsWriteOutcome.err "ETIMEDOUT",
           staleReadResult := none, nowAtStaleCheck := 0, deleteOk := true },
         { readResult := none, createOutcome := FsWriteOutcome.ok,
           staleReadResult := none, nowAtStaleCheck := 0, deleteOk := true }] =
      ({ acquired := false, networkError := true, nonce := none }, [])
    ∧ acquireLock "m" 1 "n"
        [{ readResult := none, createOutcome := FsWriteOutcome.err "EEXIST",
           staleReadResult := none, nowAtStaleCheck := 0, deleteOk := true },
         { readResult := none, createOutcome := FsWriteOutcome.ok,
           staleReadResult := none, nowAtStaleCheck := 0, deleteOk := true }] =
      acquireLock "m" 1 "n"
        [{ readResult := none, createOutcome := FsWriteOutcome.ok,
           staleReadResult := none, nowAtStaleCheck := 0, deleteOk := true }]
    ∧ acquireLock "m" 1 "n" [] =
        ({ acquired := false, networkError := false, nonce := none }, []) :=
  ⟨claim7_network_abort_eexist_retry.1 "ETIMEDOUT" rfl
      { readResult := none, createOutcome := FsWriteOutcome.err "ETIMEDOUT",
        staleReadResult := none, nowAtStaleCheck := 0, deleteOk := true }
      [{ readResult := none, createOutcome := FsWriteOutcome.ok,
         staleReadResult := none, nowAtStaleCheck := 0, deleteOk := true }]
      "m" 1 "n" rfl rfl,
   claim7_network_abort_eexist_retry.2.1
      { readResult := none, createOutcome := FsWriteOutcome.err "EEXIST",
        staleReadResult := none, nowAtStaleCheck := 0, deleteOk := true }
      [{ readResult := none, createOutcome := FsWriteOutcome.ok,
         staleReadResult := none, nowAtStaleCheck := 0, deleteOk := true }]
      "m" 1 "n" rfl rfl,
   claim7_network_abort_eexist_retry.2.2 "m" 1 "n"⟩

/-- C8: every stale-lock deletion acquireLock attempts is of a
foreign lock (different machine or process) that the staleness check
found stale — in particular a lock whose age does not exceed the
30-second threshold is never deleted — and a concrete foreign lock aged
past the threshold is deleted, after which the acquirer retries and
acquires the lock. -/
theorem claim8_stale_reclamation :
    (∀ (mid : String) (pid : Nat) (nonce : String) (env : List LockEnvStep),
      ∀ d ∈ (acquireLock mid pid nonce env).2,
        isLockStale d.lockRead d.now LOCK_STALE_TIMEOUT_MS = true
        ∧ (∀ i, d.lockRead = some i → LOCK_STALE_TIMEOUT_MS < d.now - i.acquiredAt)
        ∧ ¬(d.firstRead.machineId = mid ∧ d.firstRead.pid = pid))
    ∧ acquireLock "A" 1 "n"
        [{ readResult := some { machineId := "B", acquiredAt := 0, pid := 7, nonce := "x" },
           createOutcome := FsWriteOutcome.ok,
           staleReadResult := some { machineId := "B", acquiredAt := 0, pid := 7, nonce := "x" },
           nowAtStaleCheck := 31000, deleteOk := true },
         { readResult := none, createOutcome := FsWriteOutcome.ok,
           staleReadResult := none, nowAtStaleCheck := 31100, deleteOk := true }] =
      ({ acquired := true, networkError := false, nonce := some "n" },
       [{ firstRead := { machineId := "B", acquiredAt := 0, pid := 7, nonce := "x" },
          lockRead := some { machineId := "B", acquiredAt := 0, pid := 7, nonce := "x" },
          now := 31000 }]) := by
  constructor
  · intro mid pid nonce env
    induction env with
    | nil =>
      intro d hd
      simp [acquireLock] at hd
    | cons step rest ih =>
      intro d hd
      rw [acquireLock] at hd
      cases hr : step.readResult with
      | none =>
        rw [hr] at hd
        simp only [] at hd
        cases htc : tryCreateLockExclusive step.createOutcome with
        | created =>
          rw [htc] at hd
          simp at hd
        | network code =>
          rw [htc] at hd
          simp at hd
        | lockExists =>
          rw [htc] at hd
          exact ih d hd
        | other =>
          rw [htc] at hd
          exact ih d hd
      | some existingLock =>
        rw [hr] at hd
        simp only [] at hd
        by_cases hown : existingLock.machineId = mid ∧ existingLock.pid = pid
        · rw [if_pos hown] at hd
          simp at hd
        · rw [if_neg hown] at hd
          by_cases hstale :
              isLockStale step.staleReadResult step.nowAtStaleCheck LOCK_STALE_TIMEOUT_MS = true
          · rw [if_pos hstale] at hd
            simp only [] at hd
            rcases List.mem_cons.mp hd with rfl | hd2
            · refine ⟨hstale, ?_, hown⟩
              intro i hi
              simp only [] at hi ⊢
              rw [hi] at hstale
              unfold isLockStale at hstale
              exact of_decide_eq_true hstale
            · exact ih d hd2
          · rw [if_neg hstale] at hd
            exact ih d hd
  · decide

/-- Witness for C8's universal part at the concrete deletion its second
part exhibits: that deleted lock was foreign and stale. -/
theorem claim8_stale_reclamation_witness :
    isLockStale (some { machineId := "B", acquiredAt := 0, pid := 7, nonce := "x" })
        31000 LOCK_STALE_TIMEOUT_MS = true
    ∧ (∀ i, (some { machineId := "B", acquiredAt := 0, pid := 7, nonce := "x" } :
          Option LockInfo) = some i → LOCK_STALE_TIMEOUT_MS < 31000 - i.acquiredAt)
    ∧ ¬(({ machineId := "B", acquiredAt := 0, pid := 7, nonce := "x" } :
          LockInfo).machineId = "A" ∧
        ({ machineId := "B", acquiredAt := 0, pid := 7, nonce := "x" } :
          LockInfo).pid = 1) := by
  have h := claim8_stale_reclamation.1 "A" 1 "n"
    [{ readResult := some { machineId := "B", acquiredAt := 0, pid := 7, nonce := "x" },
       createOutcome := FsWriteOutcome.ok,
       staleReadResult := some { machineId := "B", acquiredAt := 0, pid := 7, nonce := "x" },
       nowAtStaleCheck := 31000, deleteOk := true },
     { readResult := none, createOutcome := FsWriteOutcome.ok,
       staleReadResult := none, nowAtStaleCheck := 31100, deleteOk := true }]
    { firstRead := { machineId := "B", acquiredAt := 0, pid := 7, nonce := "x" },
      lockRead := some { machineId := "B", acquiredAt := 0, pid := 7, nonce := "x" },
      now := 31000 }
    (by decide)
  exact h

theorem validateTask_isSome_of (p : TaskPayload)
    (hbad :
      (∃ v, p.title = some v ∧ ∀ s, v ≠ JsVal.vStr s) ∨
      (∃ s, p.title = some (JsVal.vStr s) ∧ jsTrim s = "") ∨
      (∃ s, p.title = some (JsVal.vStr s) ∧ 500 < utf16Len s) ∨
      (∃ s, p.description = some (JsVal.vStr s) ∧ 5000 < utf16Len s) ∨
      (∃ v, p.category = some v ∧ ∀ s, v = JsVal.vStr s → s ∉ ALL_CATEGORIES) ∨
      MAX_PAYLOAD_SIZE < jsonPayloadLen p) :
    (validateTask p).isSome := by
  unfold validateTask
  rcases hbad with ⟨v, hv, hns⟩ | ⟨s, hv, hs⟩ | ⟨s, hv, hs⟩ | ⟨s, hv, hs⟩ | ⟨v, hv, hns⟩ | hbig
  · refine validate_isSome_of_mem (List.mem_cons_self _ _) ?_
    rw [hv]
    cases v with
    | vStr s => exact absurd rfl (hns s)
    | vNum n => rfl
    | vBool b => rfl
    | vNull => rfl
  · refine validate_isSome_of_mem
      (List.mem_cons_of_mem _ (List.mem_cons_self _ _)) ?_
    rw [hv]
    exact decide_eq_true hs
  · refine validate_isSome_of_mem
      (List.mem_cons_of_mem _ (List.mem_cons_of_mem _ (List.mem_cons_self _ _))) ?_
    rw [hv]
    exact decide_eq_true hs
  · refine validate_isSome_of_mem
      (List.mem_cons_of_mem _ (List.mem_cons_of_mem _ (List.mem_cons_of_mem _
        (List.mem_cons_of_mem _ (List.mem_cons_self _ _))))) ?_
    rw [hv]
    exact decide_eq_true hs
  · refine validate_isSome_of_mem
      (List.mem_cons_of_mem _ (List.mem_cons_of_mem _ (List.mem_cons_of_mem _
        (List.mem_cons_of_mem _ (List.mem_cons_of_mem _ (List.mem_cons_self _ _)))))) ?_
    rw [hv]
    cases v with
    | vStr s =>
      have hns2 := hns s rfl
      simp [hns2]
    | vNum n => rfl
    | vBool b => rfl
    | vNull => rfl
  · refine validate_isSome_of_mem
      (List.mem_cons_of_mem _ (List.mem_cons_of_mem _ (List.mem_cons_of_mem _
        (List.mem_cons_of_mem _ (List.mem_cons_of_mem _ (List.mem_cons_of_mem _
          (List.mem_cons_self _ _))))))) ?_
    exact decide_eq_true hbig

/-- C9: every payload the claim lists as invalid (non-string or
empty/whitespace title, title over 500 UTF-16 units, description over
5000 units, category outside the allowed set, oversized serialized
payload) makes validateTask produce an error, and addTask and
updateTask return that validation error with the cache unchanged and
no sync scheduled. -/
theorem claim9_validation_rejects :
    ∀ (c : LocalCache) (p : TaskPayload) (nid : String) (now : Nat),
    ((∃ v, p.title = some v ∧ ∀ s, v ≠ JsVal.vStr s) ∨
     (∃ s, p.title = some (JsVal.vStr s) ∧ jsTrim s = "") ∨
     (∃ s, p.title = some (JsVal.vStr s) ∧ 500 < utf16Len s) ∨
     (∃ s, p.description = some (JsVal.vStr s) ∧ 5000 < utf16Len s) ∨
     (∃ v, p.category = some v ∧ ∀ s, v = JsVal.vStr s → s ∉ ALL_CATEGORIES) ∨
     MAX_PAYLOAD_SIZE < jsonPayloadLen p) →
    ∃ msg, validateTask p = some msg ∧
      addTask c p nid now = (TaskOpResult.invalid msg, c, false) ∧
      updateTask c p nid now = (TaskOpResult.invalid msg, c, false) := by
  intro c p nid now hbad
  have hsome := validateTask_isSome_of p hbad
  rcases Option.isSome_iff_exists.mp hsome with ⟨msg, hmsg⟩
  refine ⟨msg, hmsg, ?_, ?_⟩
  · unfold addTask
    rw [hmsg]
  · unfold updateTask
    rw [hmsg]

/-- Witness for C9 at a concrete input: an empty title is rejected by
validation and addTask and updateTask leave the default cache
unchanged. -/
theorem claim9_validation_rejects_witness :
    ∃ msg, validateTask { id := "t1", title := some (JsVal.vStr "") } = some msg ∧
      addTask getDefaultCache { id := "t1", title := some (JsVal.vStr "") } "p" 0 =
        (TaskOpResult.invalid msg, getDefaultCache, false) ∧
      updateTask getDefaultCache { id := "t1", title := some (JsVal.vStr "") } "p" 0 =
        (TaskOpResult.invalid msg, getDefaultCache, false) :=
  claim9_validation_rejects getDefaultCache
    { id := "t1", title := some (JsVal.vStr "") } "p" 0
    (Or.inr (Or.inl ⟨"", rfl, rfl⟩))

end TooDoo
